import Mathlib

/-!
Verification of the fin-agent-ui backend core: a shallow embedding of the
tool dispatcher (`Tools.call_function` and the individual tools in
`ai_financial_agent/tools.py`), the script synthesizer
(`ai_financial_agent/script_generator.py`) and the orchestration loop of
`query_agent` in `api.py`, together with theorems settling the spec claims.

Python strings are modelled as `List Char`; the Python string operations
used by the source (`in`, `split`, `strip`, `replace`, `endswith`) are
given executable models below.  External effects (the model exchange, the
pandas loader, the venv/pip/script subprocesses, `tempfile`) are oracles
collected in an `Env` record; the filesystem is explicit state.
-/

namespace FinAgent

/-- Python strings as character lists. -/
abbrev Str := List Char

/-- Whitespace characters stripped by Python `str.strip()` (ASCII part;
the source only ever strips ASCII text). -/
def isWs (c : Char) : Bool :=
  c = ' ' || c = '\t' || c = '\n' || c = '\r' || c = '\x0b' || c = '\x0c'

/-- Python `s.strip()`: drop leading and trailing whitespace. -/
def pyStrip (s : Str) : Str :=
  ((s.dropWhile isWs).reverse.dropWhile isWs).reverse

/-- Python `pat in s` (substring containment) for nonempty `pat`;
for `pat = []` Python's `"" in s` is `True`, matched by `isPrefixOf`. -/
def occursIn (pat : Str) : Str → Bool
  | [] => pat.isEmpty
  | c :: rest => pat.isPrefixOf (c :: rest) || occursIn pat rest

/-- Worker for Python `s.split(sep)` with nonempty separator `p :: ps`;
`acc` holds the current segment reversed.  The recursion consumes at
least one character per step, counted by structural fuel (so the
definition reduces in the kernel); any `fuel ≥ s.length` computes the
function, see `pySplitCore_fuel_eq`. -/
def pySplitCore (p : Char) (ps : List Char) : Nat → Str → List Char → List Str
  | _, [], acc => [acc.reverse]
  | 0, s, acc => [acc.reverse ++ s]
  | fuel + 1, c :: rest, acc =>
    if (p :: ps).isPrefixOf (c :: rest) then
      acc.reverse :: pySplitCore p ps fuel (rest.drop ps.length) []
    else
      pySplitCore p ps fuel rest (c :: acc)

theorem pySplitCore_fuel_eq (p : Char) (ps : List Char) :
    ∀ fuel fuel' s acc, s.length ≤ fuel → s.length ≤ fuel' →
      pySplitCore p ps fuel s acc = pySplitCore p ps fuel' s acc := by
  intro fuel
  induction fuel with
  | zero =>
    intro fuel' s acc h1 _
    have hs : s = [] := List.eq_nil_of_length_eq_zero (Nat.le_zero.mp h1)
    subst hs
    cases fuel' <;> rfl
  | succ f ih =>
    intro fuel' s acc h1 h2
    cases s with
    | nil => cases fuel' <;> rfl
    | cons c rest =>
      cases fuel' with
      | zero => simp at h2
      | succ f2 =>
        simp only [pySplitCore]
        by_cases hp : (p :: ps).isPrefixOf (c :: rest) = true
        · rw [if_pos hp, if_pos hp]
          have hlen : (rest.drop ps.length).length ≤ f := by
            simp only [List.length_drop]
            simp only [List.length_cons] at h1
            omega
          have hlen2 : (rest.drop ps.length).length ≤ f2 := by
            simp only [List.length_drop]
            simp only [List.length_cons] at h2
            omega
          rw [ih f2 _ _ hlen hlen2]
        · rw [if_neg hp, if_neg hp]
          have hlen : rest.length ≤ f := by
            simp only [List.length_cons] at h1; omega
          have hlen2 : rest.length ≤ f2 := by
            simp only [List.length_cons] at h2; omega
          exact ih f2 rest (c :: acc) hlen hlen2

/-- Worker at its canonical fuel. -/
def pySplitGo (p : Char) (ps : List Char) (s : Str) (acc : List Char) : List Str :=
  pySplitCore p ps s.length s acc

theorem pySplitGo_nil (p : Char) (ps acc : List Char) :
    pySplitGo p ps [] acc = [acc.reverse] := rfl

theorem pySplitGo_cons_pos (p : Char) (ps : List Char) (c : Char) (rest acc : List Char)
    (hp : (p :: ps).isPrefixOf (c :: rest) = true) :
    pySplitGo p ps (c :: rest) acc =
      acc.reverse :: pySplitGo p ps (rest.drop ps.length) [] := by
  show pySplitCore p ps (rest.length + 1) (c :: rest) acc = _
  simp only [pySplitCore, if_pos hp]
  rw [pySplitCore_fuel_eq p ps rest.length (rest.drop ps.length).length]
  · rfl
  · simp only [List.length_drop]; omega
  · exact Nat.le_refl _

theorem pySplitGo_cons_neg (p : Char) (ps : List Char) (c : Char) (rest acc : List Char)
    (hp : ¬ (p :: ps).isPrefixOf (c :: rest) = true) :
    pySplitGo p ps (c :: rest) acc = pySplitGo p ps rest (c :: acc) := by
  show pySplitCore p ps (rest.length + 1) (c :: rest) acc = _
  simp only [pySplitCore, if_neg hp]
  exact pySplitCore_fuel_eq p ps rest.length rest.length rest (c :: acc)
    (Nat.le_refl _) (Nat.le_refl _)

/-- Python `s.split(sep)`.  The source only splits on nonempty literals
(`"PACKAGES:"`, `"\n"`, `","`); Python raises on an empty separator, the
`[]` case here is a don't-care. -/
def pySplit (pat s : Str) : List Str :=
  match pat with
  | [] => [s]
  | p :: ps => pySplitGo p ps s []

/-- Worker for Python `s.replace(old, new)` with nonempty `old = p :: ps`:
replace every non-overlapping occurrence, scanning left to right.
Fuel-counted like `pySplitCore`. -/
def pyReplaceCore (p : Char) (ps new : List Char) : Nat → Str → Str
  | _, [] => []
  | 0, s => s
  | fuel + 1, c :: rest =>
    if (p :: ps).isPrefixOf (c :: rest) then
      new ++ pyReplaceCore p ps new fuel (rest.drop ps.length)
    else
      c :: pyReplaceCore p ps new fuel rest

theorem pyReplaceCore_fuel_eq (p : Char) (ps new : List Char) :
    ∀ fuel fuel' s, s.length ≤ fuel → s.length ≤ fuel' →
      pyReplaceCore p ps new fuel s = pyReplaceCore p ps new fuel' s := by
  intro fuel
  induction fuel with
  | zero =>
    intro fuel' s h1 _
    have hs : s = [] := List.eq_nil_of_length_eq_zero (Nat.le_zero.mp h1)
    subst hs
    cases fuel' <;> rfl
  | succ f ih =>
    intro fuel' s h1 h2
    cases s with
    | nil => cases fuel' <;> rfl
    | cons c rest =>
      cases fuel' with
      | zero => simp at h2
      | succ f2 =>
        simp only [pyReplaceCore]
        by_cases hp : (p :: ps).isPrefixOf (c :: rest) = true
        · rw [if_pos hp, if_pos hp]
          have hlen : (rest.drop ps.length).length ≤ f := by
            simp only [List.length_drop]
            simp only [List.length_cons] at h1
            omega
          have hlen2 : (rest.drop ps.length).length ≤ f2 := by
            simp only [List.length_drop]
            simp only [List.length_cons] at h2
            omega
          rw [ih f2 _ hlen hlen2]
        · rw [if_neg hp, if_neg hp]
          have hlen : rest.length ≤ f := by
            simp only [List.length_cons] at h1; omega
          have hlen2 : rest.length ≤ f2 := by
            simp only [List.length_cons] at h2; omega
          rw [ih f2 rest hlen hlen2]

/-- Worker at its canonical fuel. -/
def pyReplaceGo (p : Char) (ps new : List Char) (s : Str) : Str :=
  pyReplaceCore p ps new s.length s

theorem pyReplaceGo_nil (p : Char) (ps new : List Char) :
    pyReplaceGo p ps new [] = [] := rfl

theorem pyReplaceGo_cons_pos (p : Char) (ps new : List Char) (c : Char) (rest : List Char)
    (hp : (p :: ps).isPrefixOf (c :: rest) = true) :
    pyReplaceGo p ps new (c :: rest) = new ++ pyReplaceGo p ps new (rest.drop ps.length) := by
  show pyReplaceCore p ps new (rest.length + 1) (c :: rest) = _
  simp only [pyReplaceCore, if_pos hp]
  rw [pyReplaceCore_fuel_eq p ps new rest.length (rest.drop ps.length).length]
  · rfl
  · simp only [List.length_drop]; omega
  · exact Nat.le_refl _

theorem pyReplaceGo_cons_neg (p : Char) (ps new : List Char) (c : Char) (rest : List Char)
    (hp : ¬ (p :: ps).isPrefixOf (c :: rest) = true) :
    pyReplaceGo p ps new (c :: rest) = c :: pyReplaceGo p ps new rest := by
  show pyReplaceCore p ps new (rest.length + 1) (c :: rest) = _
  simp only [pyReplaceCore, if_neg hp]
  rfl

/-- Python `s.replace(old, new)`.  Only used with nonempty `old` by the
source; the `[]` case is a don't-care. -/
def pyReplace (pat new s : Str) : Str :=
  match pat with
  | [] => s
  | p :: ps => pyReplaceGo p ps new s

/-- Python `s.endswith(suffix)`. -/
def pyEndsWith (sfx s : Str) : Bool :=
  sfx.isSuffixOf s

/-- Structured Python values (the JSON-serialisable fragment the source
builds its tool results from). -/
inductive PyObj where
  | str (s : Str)
  | int (n : Int)
  | bool (b : Bool)
  | list (xs : List PyObj)
  | dict (kvs : List (String × PyObj))
  | none

/-- Python `d.get(k)` on a dict literal (first binding wins, as in a
Python dict display with distinct keys). -/
def PyObj.get : PyObj → String → Option PyObj
  | .dict kvs, k => kvs.lookup k
  | _, _ => Option.none

/-- Python `k in d` on a dict. -/
def PyObj.hasKey : PyObj → String → Bool
  | .dict kvs, k => (kvs.lookup k).isSome
  | _, _ => false

/-- Python `d.get(k, default)`. -/
def PyObj.getD (o : PyObj) (k : String) (dflt : PyObj) : PyObj :=
  (o.get k).getD dflt

/-- Python `x == "lit"` where `x` is an arbitrary object and the literal a
string: true exactly when `x` is that string. -/
def PyObj.eqStr : PyObj → Str → Bool
  | .str s, t => s = t
  | _, _ => false

/-- A loaded pandas DataFrame, as far as the source observes it:
column names, per-column dtype strings, and rows of values. -/
structure DataFrame where
  columns : List String
  dtypes : List Str
  rows : List (List PyObj)

/-- `df.shape` (rows, columns), serialised as the source serialises it. -/
def DataFrame.shape (df : DataFrame) : PyObj :=
  .list [.int (df.rows.length : Int), .int (df.columns.length : Int)]

/-- `list(df.columns)` as a result value. -/
def DataFrame.columnsObj (df : DataFrame) : PyObj :=
  .list (df.columns.map (fun c => .str c.toList))

/-- `df.head(n).to_dict(orient="records")`. -/
def DataFrame.headRecords (df : DataFrame) (n : Nat) : PyObj :=
  .list ((df.rows.take n).map (fun r => .dict (df.columns.zip r)))

/-- The agent's mutable Dataset Context: `self.agent.data` and
`self.agent.data_file`. -/
structure AgentState where
  data : Option DataFrame
  data_file : Option String

/-- The filesystem as the source touches it: the `datasets` directory
(`Option.none` = directory absent), the generated-script files
(path to content), and the set of live temporary environment
directories. -/
structure FS where
  datasetsDir : Option (List String)
  files : List (String × Str)
  tempDirs : List String

/-- Write (create or overwrite) a generated file. -/
def FS.writeFile (fs : FS) (path : String) (content : Str) : FS :=
  { fs with files := (path, content) :: fs.files.filter (fun pc => decide (pc.1 ≠ path)) }

/-- Outcome of one external step (a library call or subprocess): normal
return, or a raised exception carrying its text. -/
inductive StepOutcome (α : Type) where
  | ok (a : α)
  | raise (msg : Str)

/-- Outcome of the `pip install` subprocess run with `check=True`:
success, a non-zero exit (raised as `CalledProcessError` carrying
stderr), or some other exception. -/
inductive InstallOutcome where
  | ok
  | fail (stderr : Str)
  | raise (msg : Str)

/-- Environment oracles: behaviour of everything outside the embedded
code (pandas, the model exchange of the script generator, `tempfile`,
`venv`, `pip`, and the script subprocess). -/
structure Env where
  loadData : String → Except Str DataFrame
  describe : DataFrame → PyObj
  genResponse : Option Str
  freshTempDir : String
  venvCreate : StepOutcome Unit
  install : InstallOutcome
  scriptRun : StepOutcome (Int × Str × Str)

/-- A simple concrete environment used to instantiate theorems:
an empty-ish world where every external step succeeds trivially. -/
def baseEnv : Env where
  loadData := fun _ => .error []
  describe := fun _ => .none
  genResponse := Option.none
  freshTempDir := "tmpenv"
  venvCreate := .ok ()
  install := .ok
  scriptRun := .ok (0, [], [])

/-- Python exceptions that the embedded code can let escape. -/
inductive PyExc where
  | typeError (msg : String)
  deriving DecidableEq

/-- Observable side effects, recorded for the short-circuit claims. -/
inductive Effect where
  | genInvoked
  | fileWrite (path : String)
  | venvCreated (dir : String)
  | pipInstall (dir : String)
  | scriptSpawned (dir : String)
  deriving DecidableEq

/-- `{"status": "error", "message": msg}`. -/
def errDict (msg : Str) : PyObj :=
  .dict [("status", .str "error".toList), ("message", .str msg)]

/-! ## script_generator.py -/

def packagesMarker : Str := "PACKAGES:".toList

def defaultPackages : List Str :=
  ["numpy".toList, "pandas".toList, "matplotlib".toList]

/-- The dict `generate_script` returns on the non-exception path. -/
structure ScriptInfo where
  script : Str
  packages : Option (List Str)
  deriving DecidableEq

/-- The response-parsing part of `generate_script`: Python
```
if "PACKAGES:" in output_text:
    packages_line = output_text.split("PACKAGES:")[1].split("\n")[0].strip()
    packages = [pkg.strip() for pkg in packages_line.split(",")]
    script = output_text.replace(f"PACKAGES: \x7bpackages_line\x7d\n", "").strip()
    return \x7b"script": script, "packages": packages\x7d
else:
    return \x7b"script": output_text, "packages": ["numpy", "pandas", "matplotlib"]\x7d
``` -/
def parseGenerated (output_text : Str) : ScriptInfo :=
  if occursIn packagesMarker output_text then
    let seg := (pySplit packagesMarker output_text).getD 1 []
    let packages_line := pyStrip ((pySplit ['\n'] seg).getD 0 [])
    let packages := (pySplit [','] packages_line).map pyStrip
    let script := pyStrip (pyReplace (packagesMarker ++ [' '] ++ packages_line ++ ['\n']) [] output_text)
    ⟨script, some packages⟩
  else
    ⟨output_text, some defaultPackages⟩

/-- A comma-separated declaration line body: `"a, b, c"` from
`[a, b, c]` (used to state the claim about `PACKAGES:` parsing). -/
def joinComma : List Str → Str
  | [] => []
  | [p] => p
  | p :: ps => p ++ ',' :: ' ' :: joinComma ps

/-- `generate_script`: one model exchange (the oracle `env.genResponse`;
`Option.none` models the `except Exception` path returning `None`),
then parse the response text. -/
def generate_script (env : Env) : Option ScriptInfo :=
  match env.genResponse with
  | Option.none => Option.none
  | some txt => some (parseGenerated txt)

/-! ## tools.py -/

/-- Whether `os.path.exists(os.path.join("datasets", fn))` holds. -/
def datasetFileExists (fs : FS) (fn : String) : Bool :=
  match fs.datasetsDir with
  | Option.none => false
  | some names => names.contains fn

/-- `Tools.get_dataset_list`. -/
def get_dataset_list (fs : FS) : PyObj :=
  match fs.datasetsDir with
  | Option.none => errDict "Directory 'datasets' not found!".toList
  | some names =>
    let files := names.filter (fun f => pyEndsWith ".csv".toList f.toList)
    if files.isEmpty then
      .dict [("status", .str "empty".toList),
             ("message", .str "No CSV files found in the 'datasets' directory.".toList)]
    else
      .dict [("status", .str "success".toList),
             ("datasets", .list (files.map (fun f => .str f.toList)))]

/-- `self.agent.data_file` as a result value. -/
def strOrNone : Option String → PyObj
  | Option.none => .none
  | some s => .str s.toList

/-- `Tools.load_dataset`.  `os.path.join` raises `TypeError` on a
non-str filename, before anything else happens; the `try` block only
covers the pandas load and the mutation, so a loader exception leaves
the state unchanged. -/
def load_dataset (env : Env) (st : AgentState) (fs : FS) (filename : PyObj) :
    Except PyExc PyObj × AgentState :=
  match filename with
  | .str fnChars =>
    let fn : String := ⟨fnChars⟩
    if datasetFileExists fs fn then
      match env.loadData ("datasets/" ++ fn) with
      | .ok df =>
        (.ok (.dict [("status", .str "success".toList),
                     ("filename", .str fnChars),
                     ("shape", df.shape),
                     ("columns", df.columnsObj),
                     ("preview", df.headRecords 10)]),
         { data := some df, data_file := some fn })
      | .error e =>
        (.ok (errDict ("Error loading dataset: ".toList ++ e)), st)
    else
      (.ok (errDict ("File 'datasets/".toList ++ fnChars ++ "' not found!".toList)), st)
  | _ => (.error (.typeError "expected str, bytes or os.PathLike object"), st)

/-- `Tools.get_data_preview`. -/
def get_data_preview (st : AgentState) : PyObj :=
  match st.data with
  | Option.none => errDict "No dataset loaded yet.".toList
  | some df =>
    .dict [("status", .str "success".toList),
           ("filename", strOrNone st.data_file),
           ("preview", df.headRecords 5)]

/-- `Tools.get_data_info`; `df.describe()` is the `env.describe` oracle. -/
def get_data_info (env : Env) (st : AgentState) : PyObj :=
  match st.data with
  | Option.none => errDict "No dataset loaded yet.".toList
  | some df =>
    .dict [("status", .str "success".toList),
           ("filename", strOrNone st.data_file),
           ("shape", df.shape),
           ("columns", df.columnsObj),
           ("dtypes", .dict (df.columns.zip (df.dtypes.map PyObj.str))),
           ("summary", env.describe df)]

/-- `Tools._clean_script`. -/
def clean_script (script : Str) : Str :=
  pyStrip (pyReplace "```".toList [] (pyReplace "```python".toList [] script))

def scriptPathName : String := "generated_scripts/analysis_script.py"

def requirementsPathName : String := "generated_scripts/script_requirements.txt"

/-- Content of the requirements file: one package per line. -/
def reqFileContent (ps : List Str) : Str :=
  (ps.map (fun p => p ++ ['\n'])).flatten

/-- `Tools.execute_standalone_script`: acquire a fresh temporary
directory, create the venv, `pip install -r` (`check=True`), run the
script, and let `TemporaryDirectory.__exit__` delete the directory on
every path.  Every exception inside the `with` block is caught by the
`try`/`except` and turned into a result dict. -/
def execute_standalone_script (env : Env) (script_path requirements_path : String)
    (fs : FS) : PyObj × FS × List Effect :=
  let venvDir := env.freshTempDir
  let fs1 : FS := { fs with tempDirs := venvDir :: fs.tempDirs }
  let body : PyObj × List Effect :=
    match env.venvCreate with
    | .raise msg => (errDict ("Failed to execute script: ".toList ++ msg), [])
    | .ok _ =>
      match env.install with
      | .raise msg =>
        (errDict ("Failed to execute script: ".toList ++ msg),
         [.venvCreated venvDir, .pipInstall venvDir])
      | .fail stderr =>
        (errDict ("Failed to install required packages: ".toList ++ stderr),
         [.venvCreated venvDir, .pipInstall venvDir])
      | .ok =>
        match env.scriptRun with
        | .raise msg =>
          (errDict ("Failed to execute script: ".toList ++ msg),
           [.venvCreated venvDir, .pipInstall venvDir, .scriptSpawned venvDir])
        | .ok (rc, out, err) =>
          ((if rc = 0 then
              .dict [("status", .str "success".toList),
                     ("output", .str out),
                     ("message", .str "Script executed successfully".toList)]
            else
              .dict [("status", .str "error".toList),
                     ("output", .str err),
                     ("message", .str ("Script execution failed: ".toList ++ err))]),
           [.venvCreated venvDir, .pipInstall venvDir, .scriptSpawned venvDir])
  let fs2 : FS := { fs1 with tempDirs := fs1.tempDirs.filter (fun d => decide (d ≠ venvDir)) }
  (body.1, fs2, body.2)

/-- `Tools.run_script`. -/
def run_script (env : Env) (st : AgentState) (fs : FS) (analysis_request : PyObj)
    (conversation_id : Int) : PyObj × AgentState × FS × List Effect :=
  match st.data with
  | Option.none =>
    (errDict "No dataset loaded. Please load a dataset first.".toList, st, fs, [])
  | some _ =>
    match generate_script env with
    | Option.none =>
      (errDict "Failed to generate analysis script.".toList, st, fs, [.genInvoked])
    | some si =>
      if si.script.isEmpty then
        (errDict "Failed to generate analysis script.".toList, st, fs, [.genInvoked])
      else
        let required_packages := si.packages.getD defaultPackages
        let script := clean_script si.script
        let fs1 := fs.writeFile scriptPathName script
        let fs2 := fs1.writeFile requirementsPathName (reqFileContent required_packages)
        let out := execute_standalone_script env scriptPathName requirementsPathName fs2
        ((.dict [("status", .str (if (out.1.getD "status" .none).eqStr "success".toList
                                  then "success".toList else "error".toList)),
                 ("script", .str script),
                 ("required_packages", .list (required_packages.map PyObj.str)),
                 ("script_path", .str scriptPathName.toList),
                 ("requirements_path", .str requirementsPathName.toList),
                 ("execution_result", out.1),
                 ("message", out.1.getD "message" (.str "Script execution complete.".toList))]),
         st, out.2.1,
         .genInvoked :: .fileWrite scriptPathName :: .fileWrite requirementsPathName :: out.2.2)

/-! ## Tools.call_function (the dispatcher) -/

/-- Result of one dispatch: the value handed back (or the exception that
escaped), the updated agent state and filesystem, and the effects. -/
structure DispatchOut where
  result : Except PyExc PyObj
  st : AgentState
  fs : FS
  effects : List Effect

/-- Whether Python `f(**tool_args)` binds against a parameter list with
no defaults: every required name present, no extra names.  (`tool_args`
comes from a JSON object, so its keys are distinct.) -/
def bindOk (params : List String) (args : List (String × PyObj)) : Bool :=
  params.all (fun p => (args.map Prod.fst).contains p) &&
  (args.map Prod.fst).all (fun k => params.contains k)

/-- The value bound to keyword `k` (defined when `bindOk` holds). -/
def getArg (args : List (String × PyObj)) (k : String) : PyObj :=
  (args.lookup k).getD .none

/-- `Tools.call_function`: string-switch on the tool name, `**tool_args`
unpacking (a `TypeError` on a non-conforming argument map — there is no
schema pre-validation in the dispatcher), and for `run_script` the
post-processing that is meant to truncate successful results. -/
def call_function (env : Env) (tool_name : String) (tool_args : List (String × PyObj))
    (conversation_id : Int) (st : AgentState) (fs : FS) : DispatchOut :=
  if tool_name = "get_dataset_list" then
    if bindOk [] tool_args then ⟨.ok (get_dataset_list fs), st, fs, []⟩
    else ⟨.error (.typeError "get_dataset_list() got an unexpected keyword argument"), st, fs, []⟩
  else if tool_name = "load_dataset" then
    if bindOk ["filename"] tool_args then
      let r := load_dataset env st fs (getArg tool_args "filename")
      ⟨r.1, r.2, fs, []⟩
    else ⟨.error (.typeError "load_dataset() keyword arguments do not match"), st, fs, []⟩
  else if tool_name = "get_data_preview" then
    if bindOk [] tool_args then ⟨.ok (get_data_preview st), st, fs, []⟩
    else ⟨.error (.typeError "get_data_preview() got an unexpected keyword argument"), st, fs, []⟩
  else if tool_name = "get_data_info" then
    if bindOk [] tool_args then ⟨.ok (get_data_info env st), st, fs, []⟩
    else ⟨.error (.typeError "get_data_info() got an unexpected keyword argument"), st, fs, []⟩
  else if tool_name = "run_script" then
    if bindOk ["analysis_request"] tool_args then
      let r := run_script env st fs (getArg tool_args "analysis_request") conversation_id
      let tool_output := r.1
      let final :=
        if (tool_output.getD "status" .none).eqStr "success".toList
            && tool_output.hasKey "output" then
          PyObj.dict [("status", .str "executed".toList),
                      ("message", tool_output.getD "output" .none)]
        else tool_output
      ⟨.ok final, r.2.1, r.2.2.1, r.2.2.2⟩
    else ⟨.error (.typeError "run_script() keyword arguments do not match"), st, fs, []⟩
  else
    ⟨.ok (.dict [("status", .str "error".toList),
                 ("message", .str ("Unknown tool: ".toList ++ tool_name.toList))]),
     st, fs, []⟩

/-! ## api.py query_agent (the orchestration loop), against a scripted model -/

/-- One tool-call request emitted by the model. -/
structure ToolCall where
  call_id : String
  name : String
  arguments : List (String × PyObj)

/-- One interpreted model response, as `process_user_input` /
`handle_tool_response` deliver it: the final text, the function-call
items, and the usage metadata.  `needs_tool_call` is true exactly when
`tool_calls` is nonempty. -/
structure ModelResponse where
  output_text : String
  tool_calls : List ToolCall
  token_usage : PyObj

/-- One entry of the `tool_results` list returned to the caller. -/
structure ToolResultEntry where
  tool : String
  arguments : List (String × PyObj)
  result : PyObj

/-- The JSON body `query_agent` returns to the external caller. -/
structure QueryResult where
  response : String
  tool_results : Option (List ToolResultEntry)
  conversation_id : Int
  extra_data : PyObj

/-- Observable outcome: the caller-visible body, plus instrumentation
(whether the limit warning was logged, the number of tool round trips,
and the final state). -/
structure QueryOutcome where
  result : QueryResult
  limitWarningLogged : Bool
  tool_round_trips : Nat
  st : AgentState
  fs : FS

/-- `max_tool_calls = 5  # Safeguard against infinite loops`. -/
def max_tool_calls : Nat := 5

/-- An empty filesystem: no datasets directory, no generated files, no
live temp directories. -/
def emptyFS : FS := ⟨Option.none, [], []⟩

/-- Whether a value is a Python `str`. -/
def isStrVal : PyObj → Bool
  | .str _ => true
  | _ => false

/-- Whether the dispatch raised an exception (rather than returning a
result to be fed back to the model). -/
def DispatchOut.raised (d : DispatchOut) : Bool :=
  match d.result with
  | .error _ => true
  | .ok _ => false

/-- The fixed tool catalogue of `Tools.get_tools`. -/
def knownTools : List String :=
  ["get_dataset_list", "load_dataset", "get_data_preview", "get_data_info", "run_script"]

/-- Modelled from the spec's tool schema catalogue (`Tools.get_tools`):
the argument map conforms to the declared strict schema of the named
tool — exactly the required keys, no extra keys, and string-typed
values for `filename` / `analysis_request`. -/
def schemaOk (name : String) (args : List (String × PyObj)) : Bool :=
  if name = "get_dataset_list" then bindOk [] args
  else if name = "load_dataset" then
    bindOk ["filename"] args && isStrVal (getArg args "filename")
  else if name = "get_data_preview" then bindOk [] args
  else if name = "get_data_info" then bindOk [] args
  else if name = "run_script" then
    bindOk ["analysis_request"] args && isStrVal (getArg args "analysis_request")
  else false

/-- Modelled from the spec's tool schema catalogue: the key shape of
the argument map alone (required keys present, no extra keys),
regardless of value types. -/
def argKeysOk (name : String) (args : List (String × PyObj)) : Bool :=
  if name = "get_dataset_list" then bindOk [] args
  else if name = "load_dataset" then bindOk ["filename"] args
  else if name = "get_data_preview" then bindOk [] args
  else if name = "get_data_info" then bindOk [] args
  else if name = "run_script" then bindOk ["analysis_request"] args
  else true

/-- A tool call whose dispatch cannot raise: schema-conforming for a
known tool, or any unknown tool name (which the dispatcher answers with
a structured error result). -/
def dispatchSafe (c : ToolCall) : Bool :=
  if c.name ∈ knownTools then schemaOk c.name c.arguments else true

/-- A summary projection of the loop outcome used by concrete
instantiations. -/
def QueryOutcome.summary (o : QueryOutcome) : Nat × Bool × String :=
  (o.tool_round_trips, o.limitWarningLogged, o.result.response)

/-- A scripted model that requests one `get_data_preview` call on every
response. -/
def modelAlways : Nat → ModelResponse :=
  fun _ => ⟨"working", [⟨"call_a", "get_data_preview", []⟩], .none⟩

/-- A scripted model identical to `modelAlways` for the first five
responses, then finishing without tool calls. -/
def modelStops : Nat → ModelResponse :=
  fun i =>
    if i < 5 then ⟨"working", [⟨"call_a", "get_data_preview", []⟩], .none⟩
    else ⟨"working", [], .none⟩

/-- A scripted model whose tool call carries an argument map violating
the `load_dataset` schema (an unexpected keyword). -/
def modelBadArgs : Nat → ModelResponse :=
  fun _ => ⟨"t", [⟨"call_1", "load_dataset", [("bogus", .str "x".toList)]⟩], .none⟩

/-- A small loaded dataset for concrete instantiations. -/
def df0 : DataFrame :=
  ⟨["date", "price"], ["object".toList, "float64".toList],
   [[.str "2024-01-01".toList, .int 100], [.str "2024-01-02".toList, .int 103]]⟩

/-- An agent state with `df0` loaded from `data.csv`. -/
def stLoaded : AgentState := ⟨some df0, some "data.csv"⟩

/-- An environment where script generation and execution succeed, the
script printing `101.5`. -/
def envC1 : Env :=
  { baseEnv with
    genResponse := some "print(42)".toList
    scriptRun := .ok (0, "101.5\n".toList, []) }

/-- Dispatch one batch of tool calls, in the order received; an
exception escaping the dispatcher aborts the whole request (there is no
`try` around `agent.call_function` in `query_agent`). -/
def dispatchBatch (env : Env) (cid : Int) :
    List ToolCall → AgentState → FS → List ToolResultEntry →
    Except PyExc (AgentState × FS × List ToolResultEntry)
  | [], st, fs, acc => .ok (st, fs, acc)
  | c :: rest, st, fs, acc =>
    let d := call_function env c.name c.arguments cid st fs
    match d.result with
    | .error e => .error e
    | .ok r => dispatchBatch env cid rest d.st d.fs (acc ++ [⟨c.name, c.arguments, r⟩])

/-- Loop exit data: final agent response, accumulated tool results,
final `tool_call_count`, and final state. -/
structure LoopOut where
  resp : ModelResponse
  acc : List ToolResultEntry
  count : Nat
  st : AgentState
  fs : FS

/-- The `while agent_response['needs_tool_call'] and tool_call_count <
max_tool_calls` loop; `fuel = max_tool_calls - count` so the guard
`count < max_tool_calls` is `fuel > 0`.  `model idx` is the scripted
model's response to the `idx`-th request. -/
def loopAux (env : Env) (model : Nat → ModelResponse) (cid : Int) :
    Nat → Nat → Nat → ModelResponse → AgentState → FS → List ToolResultEntry →
    Except PyExc LoopOut
  | count, fuel, idx, resp, st, fs, acc =>
    if resp.tool_calls.isEmpty then .ok ⟨resp, acc, count, st, fs⟩
    else
      match fuel with
      | 0 => .ok ⟨resp, acc, count, st, fs⟩
      | fuel' + 1 =>
        match dispatchBatch env cid resp.tool_calls st fs acc with
        | .error e => .error e
        | .ok (st', fs', acc') =>
          loopAux env model cid (count + 1) fuel' (idx + 1) (model idx) st' fs' acc'

/-- `query_agent` against a scripted model: the initial
`process_user_input` is `model 0`, each `handle_tool_response` the next
index; after the loop the limit warning is logged iff
`tool_call_count >= max_tool_calls`, and the returned body carries only
text, tool results, conversation id and usage data. -/
def query_agent (env : Env) (model : Nat → ModelResponse) (cid : Int)
    (st : AgentState) (fs : FS) : Except PyExc QueryOutcome :=
  match loopAux env model cid 0 max_tool_calls 1 (model 0) st fs [] with
  | .error e => .error e
  | .ok out =>
    .ok { result := { response := out.resp.output_text,
                      tool_results := if out.acc.isEmpty then Option.none else some out.acc,
                      conversation_id := cid,
                      extra_data := out.resp.token_usage },
          limitWarningLogged := decide (max_tool_calls ≤ out.count),
          tool_round_trips := out.count,
          st := out.st,
          fs := out.fs }

/-! ## Lemmas about the string model -/

theorem isPrefixOf_append_self (l t : List Char) : l.isPrefixOf (l ++ t) = true := by
  induction l with
  | nil => simp [List.isPrefixOf]
  | cons c cs ih => simp [List.isPrefixOf, ih]

theorem eq_append_of_isPrefixOf :
    ∀ {pat s : List Char}, pat.isPrefixOf s = true → ∃ t, s = pat ++ t := by
  intro pat
  induction pat with
  | nil => intro s _; exact ⟨s, rfl⟩
  | cons a as ih =>
    intro s h
    cases s with
    | nil => simp [List.isPrefixOf] at h
    | cons b bs =>
      simp only [List.isPrefixOf, Bool.and_eq_true, beq_iff_eq] at h
      obtain ⟨t, ht⟩ := ih h.2
      exact ⟨t, by rw [h.1, List.cons_append, ht]⟩

theorem occursIn_iff (pat : Str) :
    ∀ s, occursIn pat s = true ↔ ∃ u v, s = u ++ pat ++ v := by
  intro s
  induction s with
  | nil =>
    constructor
    · intro h
      simp only [occursIn, List.isEmpty_iff] at h
      exact ⟨[], [], by simp [h]⟩
    · rintro ⟨u, v, huv⟩
      have := huv.symm
      simp only [List.append_eq_nil, List.append_assoc] at this
      simp [occursIn, this.2.1]
  | cons c rest ih =>
    constructor
    · intro h
      simp only [occursIn, Bool.or_eq_true] at h
      rcases h with hp | ho
      · obtain ⟨t, ht⟩ := eq_append_of_isPrefixOf hp
        exact ⟨[], t, by simp [ht]⟩
      · obtain ⟨u, v, h⟩ := ih.mp ho
        exact ⟨c :: u, v, by simp [h]⟩
    · rintro ⟨u, v, h⟩
      cases u with
      | nil =>
        simp only [List.nil_append] at h
        have hp : pat.isPrefixOf (c :: rest) = true := by
          rw [h]; exact isPrefixOf_append_self pat v
        simp [occursIn, hp]
      | cons x u' =>
        simp only [List.cons_append] at h
        injection h with h1 h2
        have := ih.mpr ⟨u', v, h2⟩
        simp [occursIn, this]

theorem occursIn_append_right (pat a b : Str) (h : occursIn pat b = true) :
    occursIn pat (a ++ b) = true := by
  obtain ⟨u, v, huv⟩ := (occursIn_iff pat b).mp h
  exact (occursIn_iff pat (a ++ b)).mpr ⟨a ++ u, v, by simp [huv]⟩

theorem occursIn_of_occursIn_extend (pat ext s : Str)
    (h : occursIn (pat ++ ext) s = true) : occursIn pat s = true := by
  obtain ⟨u, v, huv⟩ := (occursIn_iff (pat ++ ext) s).mp h
  exact (occursIn_iff pat s).mpr ⟨u, ext ++ v, by simp [huv]⟩

theorem occursIn_append_self (pat t : Str) (h : pat ≠ []) :
    occursIn pat (pat ++ t) = true := by
  cases pat with
  | nil => exact absurd rfl h
  | cons p ps =>
    have hp : (p :: ps).isPrefixOf ((p :: ps) ++ t) = true := isPrefixOf_append_self _ _
    rw [List.cons_append] at hp ⊢
    simp [occursIn, hp]

theorem pySplitGo_no_occ (p : Char) (ps : List Char) :
    ∀ s acc, occursIn (p :: ps) s = false → pySplitGo p ps s acc = [acc.reverse ++ s] := by
  intro s
  induction s with
  | nil => intro acc _; simp [pySplitGo_nil]
  | cons c rest ih =>
    intro acc h
    simp only [occursIn, Bool.or_eq_false_iff] at h
    rw [pySplitGo_cons_neg p ps c rest acc (by simp [h.1])]
    rw [ih (c :: acc) h.2]
    simp

theorem pyReplaceGo_no_occ (p : Char) (ps new : List Char) :
    ∀ s, occursIn (p :: ps) s = false → pyReplaceGo p ps new s = s := by
  intro s
  induction s with
  | nil => intro _; rfl
  | cons c rest ih =>
    intro h
    simp only [occursIn, Bool.or_eq_false_iff] at h
    rw [pyReplaceGo_cons_neg p ps new c rest (by simp [h.1])]
    rw [ih h.2]

theorem pySplitGo_head (p : Char) (ps rest acc : List Char) :
    pySplitGo p ps ((p :: ps) ++ rest) acc = acc.reverse :: pySplitGo p ps rest [] := by
  have hp : (p :: ps).isPrefixOf ((p :: ps) ++ rest) = true := isPrefixOf_append_self _ _
  rw [List.cons_append] at hp ⊢
  rw [pySplitGo_cons_pos p ps p (ps ++ rest) acc hp, List.drop_left]

theorem pyReplaceGo_head (p : Char) (ps new rest : List Char) :
    pyReplaceGo p ps new ((p :: ps) ++ rest) = new ++ pyReplaceGo p ps new rest := by
  have hp : (p :: ps).isPrefixOf ((p :: ps) ++ rest) = true := isPrefixOf_append_self _ _
  rw [List.cons_append] at hp ⊢
  rw [pyReplaceGo_cons_pos p ps new p (ps ++ rest) hp, List.drop_left]

theorem pySplit_cons (p : Char) (ps : List Char) (s : Str) :
    pySplit (p :: ps) s = pySplitGo p ps s [] := rfl

theorem pyReplace_cons (p : Char) (ps new : List Char) (s : Str) :
    pyReplace (p :: ps) new s = pyReplaceGo p ps new s := rfl

theorem occursIn_single_eq_false (c : Char) :
    ∀ xs, c ∉ xs → occursIn [c] xs = false := by
  intro xs
  induction xs with
  | nil => intro _; rfl
  | cons x rest ih =>
    intro h
    simp only [List.mem_cons, not_or] at h
    have hc : ¬ c = x := h.1
    simp only [occursIn, Bool.or_eq_false_iff]
    refine ⟨?_, ih h.2⟩
    simp [List.isPrefixOf, hc]

theorem pySplitGo_single_mid (c : Char) :
    ∀ xs acc ys, c ∉ xs →
      pySplitGo c [] (xs ++ c :: ys) acc = (acc.reverse ++ xs) :: pySplitGo c [] ys [] := by
  intro xs
  induction xs with
  | nil =>
    intro acc ys _
    have hp : [c].isPrefixOf (c :: ys) = true := by simp [List.isPrefixOf]
    simpa using pySplitGo_cons_pos c [] c ys acc hp
  | cons x rest ih =>
    intro acc ys h
    simp only [List.mem_cons, not_or] at h
    rw [List.cons_append,
        pySplitGo_cons_neg c [] x (rest ++ c :: ys) acc (by simp [List.isPrefixOf]; exact h.1),
        ih (x :: acc) ys h.2]
    simp

theorem dropWhile_ws_eq_self (l : List Char)
    (h : ∀ c, l.head? = some c → isWs c = false) : l.dropWhile isWs = l := by
  cases l with
  | nil => rfl
  | cons x rest =>
    rw [List.dropWhile_cons, if_neg]
    simp [h x rfl]

theorem pyStrip_eq_self (l : List Char)
    (h1 : ∀ c, l.head? = some c → isWs c = false)
    (h2 : ∀ c, l.getLast? = some c → isWs c = false) : pyStrip l = l := by
  unfold pyStrip
  rw [dropWhile_ws_eq_self l h1]
  rw [dropWhile_ws_eq_self l.reverse (by
    intro c hc
    rw [List.head?_reverse] at hc
    exact h2 c hc)]
  exact List.reverse_reverse l

theorem pyStrip_ws_cons (c : Char) (l : List Char) (h : isWs c = true) :
    pyStrip (c :: l) = pyStrip l := by
  simp [pyStrip, List.dropWhile_cons, h]

theorem pyStrip_all_not_ws (l : List Char) (h : ∀ c ∈ l, isWs c = false) :
    pyStrip l = l := by
  refine pyStrip_eq_self l ?_ ?_
  · intro c hc
    exact h c (List.mem_of_mem_head? hc)
  · intro c hc
    exact h c (List.mem_of_mem_getLast? hc)

theorem generate_script_eq_some (env : Env) (txt : Str)
    (h : env.genResponse = some txt) :
    generate_script env = some (parseGenerated txt) := by
  unfold generate_script
  rw [h]

theorem generate_script_eq_none (env : Env)
    (h : env.genResponse = Option.none) :
    generate_script env = Option.none := by
  unfold generate_script
  rw [h]

theorem parseGenerated_pos (txt : Str) (h : occursIn packagesMarker txt = true) :
    parseGenerated txt =
      ⟨pyStrip (pyReplace (packagesMarker ++ [' ']
          ++ pyStrip ((pySplit ['\n'] ((pySplit packagesMarker txt).getD 1 [])).getD 0 [])
          ++ ['\n']) [] txt),
       some ((pySplit [',']
          (pyStrip ((pySplit ['\n'] ((pySplit packagesMarker txt).getD 1 [])).getD 0 []))).map
          pyStrip)⟩ := by
  unfold parseGenerated
  rw [h]
  simp

theorem parseGenerated_neg (txt : Str) (h : occursIn packagesMarker txt = false) :
    parseGenerated txt = ⟨txt, some defaultPackages⟩ := by
  unfold parseGenerated
  rw [h]
  simp

theorem pyStrip_ws_append (a l : List Char) (ha : ∀ c ∈ a, isWs c = true) :
    pyStrip (a ++ l) = pyStrip l := by
  induction a with
  | nil => rfl
  | cons x rest ih =>
    rw [List.cons_append, pyStrip_ws_cons x _ (ha x (by simp))]
    exact ih (fun c hc => ha c (by simp [hc]))

/-- Decompose an occurrence of `pat` inside `a ++ b`: it lies in `a`,
lies in `b`, or straddles the boundary. -/
theorem occ_append_cases {pat a b u v : List Char}
    (h : a ++ b = u ++ (pat ++ v)) :
    (∃ u1 v1, a = u1 ++ (pat ++ v1)) ∨
    (∃ u1 v1, b = u1 ++ (pat ++ v1)) ∨
    (∃ t w, pat = t ++ w ∧ t ≠ [] ∧ w ≠ [] ∧ (∃ a1, a = a1 ++ t) ∧ ∃ b1, b = w ++ b1) := by
  rcases List.append_eq_append_iff.mp h with ⟨t, _, hb⟩ | ⟨t, ha, hpv⟩
  · exact Or.inr (Or.inl ⟨t, v, hb⟩)
  · rcases List.append_eq_append_iff.mp hpv with ⟨w, ht, _⟩ | ⟨w, hp, hb⟩
    · exact Or.inl ⟨u, w, by rw [ha, ht]⟩
    · cases t with
      | nil =>
        simp only [List.nil_append] at hp
        exact Or.inr (Or.inl ⟨[], v, by simp [hb, hp]⟩)
      | cons tc ts =>
        cases w with
        | nil =>
          rw [List.append_nil] at hp
          exact Or.inl ⟨u, [], by rw [ha, ← hp, List.append_nil]⟩
        | cons wc ws =>
          exact Or.inr (Or.inr ⟨tc :: ts, wc :: ws, hp, by simp, by simp,
            ⟨u, ha⟩, ⟨v, hb⟩⟩)

/-- No occurrence of `PACKAGES:` in the tail of a well-formed response:
the leading space, a colon-free names segment, a newline, and a
remainder without the marker. -/
theorem no_occ_marker_tail (names rest : Str)
    (hcolon : ':' ∉ names)
    (hrest : occursIn packagesMarker rest = false) :
    occursIn packagesMarker (' ' :: (names ++ '\n' :: rest)) = false := by
  by_contra hocc
  rw [Bool.not_eq_false] at hocc
  obtain ⟨u, v, huv⟩ := (occursIn_iff _ _).mp hocc
  have hm : packagesMarker = 'P' :: "ACKAGES:".toList := rfl
  rw [List.append_assoc] at huv
  cases u with
  | nil =>
    rw [List.nil_append, hm] at huv
    injection huv with h1 _
    exact absurd h1 (by decide)
  | cons x u' =>
    rw [List.cons_append] at huv
    injection huv with _ h2
    rcases occ_append_cases h2 with ⟨u1, v1, hA⟩ | ⟨u1, v1, hB⟩ | ⟨t, w, hpat, _, hw, _, b1, hb⟩
    · have : ':' ∈ names := by
        rw [hA]
        have : ':' ∈ packagesMarker := by decide
        simp [this]
      exact hcolon this
    · cases u1 with
      | nil =>
        rw [List.nil_append, hm] at hB
        injection hB with h1 _
        exact absurd h1 (by decide)
      | cons y u'' =>
        rw [List.cons_append] at hB
        injection hB with _ h3
        have : occursIn packagesMarker rest = true :=
          (occursIn_iff _ _).mpr ⟨u'', v1, by rw [h3, List.append_assoc]⟩
        rw [hrest] at this
        exact absurd this (by simp)
    · cases w with
      | nil => exact hw rfl
      | cons wc ws =>
        rw [List.cons_append] at hb
        injection hb with h4 _
        have : '\n' ∈ packagesMarker := by
          rw [hpat, h4]
          simp
        exact absurd this (by decide)

/-- Characters of a joined package line are commas, spaces, or token
characters. -/
theorem joinComma_chars :
    ∀ pkgs, ∀ c ∈ joinComma pkgs, c = ',' ∨ c = ' ' ∨ ∃ p ∈ pkgs, c ∈ p := by
  intro pkgs
  induction pkgs with
  | nil => intro c hc; simp [joinComma] at hc
  | cons p rest ih =>
    intro c hc
    cases rest with
    | nil =>
      simp only [joinComma] at hc
      exact Or.inr (Or.inr ⟨p, by simp, hc⟩)
    | cons q rest' =>
      simp only [joinComma, List.mem_append, List.mem_cons] at hc
      rcases hc with hp | hcomma | hspace | hjoin
      · exact Or.inr (Or.inr ⟨p, by simp, hp⟩)
      · exact Or.inl hcomma
      · exact Or.inr (Or.inl hspace)
      · rcases ih c hjoin with h | h | ⟨p', hp', hcp'⟩
        · exact Or.inl h
        · exact Or.inr (Or.inl h)
        · exact Or.inr (Or.inr ⟨p', by simp [hp'], hcp'⟩)

theorem joinComma_ne_nil (pkgs : List Str) (hne : pkgs ≠ [])
    (h : ∀ p ∈ pkgs, p ≠ []) : joinComma pkgs ≠ [] := by
  cases pkgs with
  | nil => exact absurd rfl hne
  | cons p rest =>
    cases rest with
    | nil => exact h p (by simp)
    | cons q rest' =>
      simp only [joinComma]
      intro hcontra
      rcases List.append_eq_nil.mp hcontra with ⟨hp, _⟩
      exact h p (by simp) hp

theorem joinComma_getLast_not_ws :
    ∀ pkgs, (∀ p ∈ pkgs, p ≠ [] ∧ ∀ c ∈ p, isWs c = false) →
      ∀ c, (joinComma pkgs).getLast? = some c → isWs c = false := by
  intro pkgs
  induction pkgs with
  | nil => intro _ c hc; simp [joinComma] at hc
  | cons p rest ih =>
    intro h c hc
    cases rest with
    | nil =>
      exact (h p (by simp)).2 c (List.mem_of_mem_getLast? hc)
    | cons q rest' =>
      have hjoin_ne : joinComma (q :: rest') ≠ [] :=
        joinComma_ne_nil _ (by simp) (fun p' hp' => (h p' (by simp [hp'])).1)
      cases hj : joinComma (q :: rest') with
      | nil => exact absurd hj hjoin_ne
      | cons j js =>
        simp only [joinComma, hj] at hc
        rw [List.getLast?_append] at hc
        simp only [List.getLast?_cons_cons] at hc
        have : (j :: js).getLast?.isSome := by
          simp [List.getLast?_isSome]
        rw [Option.or_of_isSome this] at hc
        refine ih (fun p' hp' => h p' (by simp [hp'])) c ?_
        rw [hj]
        exact hc

theorem joinComma_head_not_ws :
    ∀ pkgs, (∀ p ∈ pkgs, p ≠ [] ∧ ∀ c ∈ p, isWs c = false) →
      ∀ c, (joinComma pkgs).head? = some c → isWs c = false := by
  intro pkgs
  induction pkgs with
  | nil => intro _ c hc; simp [joinComma] at hc
  | cons p rest _ =>
    intro h c hc
    cases rest with
    | nil =>
      exact (h p (by simp)).2 c (List.mem_of_mem_head? hc)
    | cons q rest' =>
      cases hp : p with
      | nil => exact absurd hp (h p (by simp)).1
      | cons a as =>
        simp only [joinComma, hp, List.cons_append, List.head?_cons,
          Option.some.injEq] at hc
        exact (h p (by simp)).2 c (by rw [hp, ← hc]; simp)

theorem pyStrip_joinComma (pkgs : List Str) (hne : pkgs ≠ [])
    (h : ∀ p ∈ pkgs, p ≠ [] ∧ ∀ c ∈ p, isWs c = false) :
    pyStrip (joinComma pkgs) = joinComma pkgs := by
  refine pyStrip_eq_self _ (joinComma_head_not_ws pkgs h) (joinComma_getLast_not_ws pkgs h)

/-- Splitting a joined line on commas and stripping each piece recovers
the tokens. -/
theorem pySplitGo_joinComma :
    ∀ pkgs, pkgs ≠ [] →
      (∀ p ∈ pkgs, (∀ c ∈ p, isWs c = false) ∧ ',' ∉ p) →
      ∀ acc, (∀ c ∈ acc, isWs c = true) →
        (pySplitGo ',' [] (joinComma pkgs) acc).map pyStrip = pkgs := by
  intro pkgs
  induction pkgs with
  | nil => intro hne; exact absurd rfl hne
  | cons p rest ih =>
    intro _ h acc hacc
    have hstrip_head : pyStrip (acc.reverse ++ p) = p := by
      rw [pyStrip_ws_append acc.reverse p
        (fun c hc => hacc c (List.mem_reverse.mp hc))]
      exact pyStrip_all_not_ws p (h p (by simp)).1
    cases rest with
    | nil =>
      rw [show joinComma [p] = p from rfl]
      rw [pySplitGo_no_occ ',' [] p acc
        (occursIn_single_eq_false ',' p (h p (by simp)).2)]
      simp [hstrip_head]
    | cons q rest' =>
      rw [show joinComma (p :: q :: rest') = p ++ ',' :: ' ' :: joinComma (q :: rest')
        from rfl]
      rw [pySplitGo_single_mid ',' p acc (' ' :: joinComma (q :: rest'))
        (h p (by simp)).2]
      rw [pySplitGo_cons_neg ',' [] ' ' (joinComma (q :: rest')) []
        (by simp [List.isPrefixOf])]
      rw [List.map_cons, hstrip_head]
      rw [ih (by simp) (fun p' hp' => h p' (by simp [hp'])) [' '] (by simp [isWs])]

/-! ## Claim C4 -/

/-- C4 (counterexample): for the response text
`"PACKAGES: numpy\n\nimport os\n"` the synthesizer returns the package
list `[numpy]`, but the returned source is `"import os"`, not the exact
text with the declaration line removed (`"\nimport os\n"`): the source
is additionally stripped of surrounding whitespace, so the exact-text
round trip claimed fails. -/
theorem C4_counterexample :
    generate_script { baseEnv with
        genResponse := some "PACKAGES: numpy\n\nimport os\n".toList }
      = some ⟨"import os".toList, some ["numpy".toList]⟩ ∧
    "import os".toList ≠ "\nimport os\n".toList := by
  exact ⟨by decide, by decide⟩

/-- C4 (amended): if the synthesizer response has the canonical form
`PACKAGES: <names>\n<rest>` — the marker at the start followed by a
single space, tokens that are nonempty and free of whitespace, commas,
colons and newlines, and no further occurrence of the marker — then
`generate_script` returns exactly the comma-separated
whitespace-trimmed names as the package list, and the source is `rest`
with its leading and trailing whitespace stripped (not the exact text);
if the marker does not occur at all, it returns the fixed default
package list `[numpy, pandas, matplotlib]` and the full response text
unmodified. -/
theorem C4_amended :
    (∀ (env : Env) (pkgs : List Str) (rest : Str),
      pkgs ≠ [] →
      (∀ p ∈ pkgs, p ≠ [] ∧ ∀ c ∈ p, isWs c = false ∧ c ≠ ',' ∧ c ≠ ':' ∧ c ≠ '\n') →
      occursIn packagesMarker rest = false →
      env.genResponse = some (packagesMarker ++ ' ' :: (joinComma pkgs ++ '\n' :: rest)) →
      generate_script env = some ⟨pyStrip rest, some pkgs⟩) ∧
    (∀ (env : Env) (txt : Str),
      occursIn packagesMarker txt = false →
      env.genResponse = some txt →
      generate_script env = some ⟨txt, some defaultPackages⟩) := by
  constructor
  · intro env pkgs rest hne htok hrest hresp
    have hm : packagesMarker = 'P' :: "ACKAGES:".toList := rfl
    have htokA : ∀ p ∈ pkgs, p ≠ [] ∧ ∀ c ∈ p, isWs c = false :=
      fun p hp => ⟨(htok p hp).1, fun c hc => ((htok p hp).2 c hc).1⟩
    have hcolon : ':' ∉ joinComma pkgs := by
      intro hmem
      rcases joinComma_chars pkgs ':' hmem with h | h | ⟨p, hp, hcp⟩
      · exact absurd h (by decide)
      · exact absurd h (by decide)
      · exact (((htok p hp).2 ':' hcp).2.2.1) rfl
    have hnl : '\n' ∉ joinComma pkgs := by
      intro hmem
      rcases joinComma_chars pkgs '\n' hmem with h | h | ⟨p, hp, hcp⟩
      · exact absurd h (by decide)
      · exact absurd h (by decide)
      · exact (((htok p hp).2 '\n' hcp).2.2.2) rfl
    have hocc_tail : occursIn packagesMarker
        (' ' :: (joinComma pkgs ++ '\n' :: rest)) = false :=
      no_occ_marker_tail _ rest hcolon hrest
    have hocc_text : occursIn packagesMarker
        (packagesMarker ++ ' ' :: (joinComma pkgs ++ '\n' :: rest)) = true :=
      occursIn_append_self _ _ (by rw [hm]; simp)
    have h1 : (pySplit packagesMarker
        (packagesMarker ++ ' ' :: (joinComma pkgs ++ '\n' :: rest))).getD 1 []
        = ' ' :: (joinComma pkgs ++ '\n' :: rest) := by
      rw [hm, pySplit_cons]
      rw [show ('P' :: "ACKAGES:".toList) ++ ' ' :: (joinComma pkgs ++ '\n' :: rest)
            = ('P' :: "ACKAGES:".toList) ++ (' ' :: (joinComma pkgs ++ '\n' :: rest))
          from rfl]
      rw [pySplitGo_head]
      rw [pySplitGo_no_occ 'P' "ACKAGES:".toList _ [] (by rw [← hm]; exact hocc_tail)]
      rfl
    have h2 : pyStrip ((pySplit ['\n']
        (' ' :: (joinComma pkgs ++ '\n' :: rest))).getD 0 []) = joinComma pkgs := by
      rw [show (' ' :: (joinComma pkgs ++ '\n' :: rest))
            = (' ' :: joinComma pkgs) ++ '\n' :: rest by simp]
      rw [pySplit_cons]
      rw [pySplitGo_single_mid '\n' (' ' :: joinComma pkgs) [] rest
        (by simp; exact fun h => hnl h)]
      rw [show (([] : List Char).reverse ++ ' ' :: joinComma pkgs)
            = ' ' :: joinComma pkgs by simp]
      show pyStrip (' ' :: joinComma pkgs) = _
      rw [pyStrip_ws_cons ' ' _ (by decide)]
      exact pyStrip_joinComma pkgs hne htokA
    have h3 : ((pySplit [','] (joinComma pkgs)).map pyStrip) = pkgs := by
      rw [pySplit_cons]
      exact pySplitGo_joinComma pkgs hne
        (fun p hp => ⟨fun c hc => ((htok p hp).2 c hc).1,
          fun hcp => (((htok p hp).2 ',' hcp).2.1) rfl⟩) [] (by simp)
    have h4 : pyStrip (pyReplace (packagesMarker ++ [' '] ++ joinComma pkgs ++ ['\n']) []
        (packagesMarker ++ ' ' :: (joinComma pkgs ++ '\n' :: rest))) = pyStrip rest := by
      have hL : packagesMarker ++ [' '] ++ joinComma pkgs ++ ['\n']
          = 'P' :: ("ACKAGES:".toList ++ ([' '] ++ joinComma pkgs ++ ['\n'])) := by
        rw [hm]; simp
      have htext : (packagesMarker ++ ' ' :: (joinComma pkgs ++ '\n' :: rest))
          = ('P' :: ("ACKAGES:".toList ++ ([' '] ++ joinComma pkgs ++ ['\n']))) ++ rest := by
        rw [hm]; simp
      rw [hL, htext, pyReplace_cons]
      rw [pyReplaceGo_head]
      rw [pyReplaceGo_no_occ 'P' _ [] rest ?hno]
      case hno =>
        by_contra hcon
        rw [Bool.not_eq_false] at hcon
        have hcon2 : occursIn (packagesMarker ++ ([' '] ++ joinComma pkgs ++ ['\n'])) rest
            = true := by
          rw [hm]
          simpa using hcon
        have : occursIn packagesMarker rest = true :=
          occursIn_of_occursIn_extend packagesMarker _ rest hcon2
        rw [hrest] at this
        exact absurd this (by simp)
      rfl
    rw [generate_script_eq_some env _ hresp, parseGenerated_pos _ hocc_text]
    rw [h1, h2, h3, h4]
  · intro env txt hocc hresp
    rw [generate_script_eq_some env _ hresp, parseGenerated_neg _ hocc]

/-- C4 (witness): the amended theorem applied at a concrete canonical
response `PACKAGES: a, b, c` followed by `print(1)`, and at a concrete
marker-free response. -/
theorem C4_witness :
    generate_script { baseEnv with
        genResponse := some (packagesMarker ++ ' ' ::
          (joinComma ["a".toList, "b".toList, "c".toList] ++ '\n' :: "print(1)\n".toList)) }
      = some ⟨"print(1)".toList, some ["a".toList, "b".toList, "c".toList]⟩ ∧
    generate_script { baseEnv with genResponse := some "no marker here\n".toList }
      = some ⟨"no marker here\n".toList, some defaultPackages⟩ := by
  constructor
  · have h := C4_amended.1
      { baseEnv with
        genResponse := some (packagesMarker ++ ' ' ::
          (joinComma ["a".toList, "b".toList, "c".toList] ++ '\n' :: "print(1)\n".toList)) }
      ["a".toList, "b".toList, "c".toList] "print(1)\n".toList
      (by decide) (by decide) (by decide) rfl
    rw [show pyStrip "print(1)\n".toList = "print(1)".toList from by decide] at h
    exact h
  · exact C4_amended.2
      { baseEnv with genResponse := some "no marker here\n".toList }
      "no marker here\n".toList (by decide) rfl

/-! ## Claim C1 -/

/-- C1 (code bug): on a successful `run_script` execution the
dispatcher returns the FULL `run_script` result to the model —
including `execution_result` with the complete captured stdout — and
not the truncated `status`/`message` pair.  The truncation branch in
`call_function` tests `"output" in tool_output` on the top level, but
`run_script`'s result dict never carries a top-level `"output"` key
(the captured stdout lives inside `execution_result`), so the branch
guarded by the comment "Don't send full results back to the AI model"
is dead code.  Concretely: generation succeeds and the script prints
`101.5`; the value handed back to the model is the full result, whose
nested `execution_result.output` is the complete stdout, whose status
is `success` (so the truncation was meant to fire), and which has no
top-level `output` key (why the guard misses). -/
theorem C1_full_stdout_reaches_model :
    ((call_function envC1 "run_script" [("analysis_request", .str "avg".toList)] 7
        stLoaded emptyFS).result =
      .ok (run_script envC1 stLoaded emptyFS (.str "avg".toList) 7).1) ∧
    (((run_script envC1 stLoaded emptyFS (.str "avg".toList) 7).1.getD
        "execution_result" .none).getD "output" .none = .str "101.5\n".toList) ∧
    ((run_script envC1 stLoaded emptyFS (.str "avg".toList) 7).1.getD "status" .none
        = .str "success".toList) ∧
    ((run_script envC1 stLoaded emptyFS (.str "avg".toList) 7).1.hasKey "output" = false) := by
  refine ⟨rfl, rfl, rfl, by decide⟩

/-! ## Claim C5 -/

/-- C5 (confirmed): `run_script` with no dataset loaded returns the
structured error result and stops before anything else: the state and
filesystem are unchanged and the effect trace is empty — in particular
the Script Synthesizer (`genInvoked`) and the Sandbox Executor
(`venvCreated`/`pipInstall`/`scriptSpawned`) are never invoked. -/
theorem C5_no_dataset_short_circuit (env : Env) (st : AgentState) (fs : FS)
    (req : PyObj) (cid : Int) (h : st.data = Option.none) :
    run_script env st fs req cid =
      (errDict "No dataset loaded. Please load a dataset first.".toList, st, fs, []) := by
  simp only [run_script, h]

/-- C5 (witness): the theorem at a fresh agent state. -/
theorem C5_witness :
    run_script baseEnv ⟨Option.none, Option.none⟩ emptyFS (.str "avg".toList) 7 =
      (errDict "No dataset loaded. Please load a dataset first.".toList,
       ⟨Option.none, Option.none⟩, emptyFS, []) :=
  C5_no_dataset_short_circuit baseEnv ⟨Option.none, Option.none⟩ emptyFS
    (.str "avg".toList) 7 rfl

/-! ## Claim C6 -/

/-- C6 (confirmed): whatever the oracles do — venv creation raising,
install failing or raising, the script failing or raising, or a clean
run — after `execute_standalone_script` returns, the temporary
environment directory is gone from the filesystem, and no other
directory is affected.  The exception paths are all caught inside the
`with` block, and `TemporaryDirectory.__exit__` deletes the directory
unconditionally. -/
theorem C6_temp_dir_released (env : Env) (sp rp : String) (fs : FS) :
    env.freshTempDir ∉ (execute_standalone_script env sp rp fs).2.1.tempDirs ∧
    ∀ d, (d ∈ (execute_standalone_script env sp rp fs).2.1.tempDirs ↔
      d ∈ fs.tempDirs ∧ d ≠ env.freshTempDir) := by
  constructor
  · simp [execute_standalone_script, List.mem_filter]
  · intro d
    simp only [execute_standalone_script, List.mem_filter, List.mem_cons, decide_eq_true_eq]
    constructor
    · rintro ⟨hd | hd, hne⟩
      · exact absurd hd hne
      · exact ⟨hd, hne⟩
    · rintro ⟨hd, hne⟩
      exact ⟨Or.inr hd, hne⟩

/-! ## Claim C7 -/

/-- C7 (confirmed): when the venv is created but `pip install` exits
non-zero (`CalledProcessError`), the executor returns the
install-failed error result carrying the installer's stderr, and no
script process is ever spawned. -/
theorem C7_install_failure_short_circuit (env : Env) (sp rp : String) (fs : FS)
    (stderr : Str) (hc : env.venvCreate = .ok ()) (hi : env.install = .fail stderr) :
    (execute_standalone_script env sp rp fs).1 =
      errDict ("Failed to install required packages: ".toList ++ stderr) ∧
    ∀ d, Effect.scriptSpawned d ∉ (execute_standalone_script env sp rp fs).2.2 := by
  constructor
  · simp [execute_standalone_script, hc, hi]
  · intro d
    simp [execute_standalone_script, hc, hi]

/-- C7 (witness): the theorem at a concrete failing installer. -/
theorem C7_witness :
    (execute_standalone_script { baseEnv with install := .fail "boom".toList }
        "s" "r" emptyFS).1 =
      errDict ("Failed to install required packages: ".toList ++ "boom".toList) ∧
    Effect.scriptSpawned "tmpenv" ∉
      (execute_standalone_script { baseEnv with install := .fail "boom".toList }
        "s" "r" emptyFS).2.2 := by
  have h := C7_install_failure_short_circuit
    { baseEnv with install := .fail "boom".toList } "s" "r" emptyFS "boom".toList rfl rfl
  exact ⟨h.1, h.2 "tmpenv"⟩

/-! ## Claim C8 -/

/-- C8 (confirmed): whenever `load_dataset` returns an error result
(missing file, or a loader exception), the Dataset Context is left
unchanged: the mutation happens only on the success path, after the
existence check and after the loader returned. -/
theorem C8_error_leaves_context_unchanged (env : Env) (st : AgentState) (fs : FS)
    (filename : PyObj) (r : PyObj)
    (h1 : (load_dataset env st fs filename).1 = .ok r)
    (h2 : (r.getD "status" PyObj.none).eqStr "error".toList = true) :
    (load_dataset env st fs filename).2 = st := by
  cases filename with
  | str fnChars =>
    simp only [load_dataset] at h1 ⊢
    by_cases hex : datasetFileExists fs ⟨fnChars⟩ = true
    · simp only [hex, if_true] at h1 ⊢
      cases hld : env.loadData ("datasets/" ++ ⟨fnChars⟩) with
      | ok df =>
        rw [hld] at h1
        simp only [Except.ok.injEq] at h1
        subst h1
        simp [PyObj.getD, PyObj.get, PyObj.eqStr, List.lookup] at h2
      | error e => rfl
    · simp only [hex, if_false] at h1 ⊢
      simp only [Bool.not_eq_true] at hex
      simp [hex]
  | int n => rfl
  | bool b => rfl
  | list xs => rfl
  | dict kvs => rfl
  | none => rfl

/-- C8 (witness): `load_dataset "missing.csv"` with a dataset already
loaded leaves the previously loaded dataset and filename active. -/
theorem C8_witness :
    (load_dataset baseEnv stLoaded ⟨some ["data.csv"], [], []⟩
        (.str "missing.csv".toList)).2 = stLoaded :=
  C8_error_leaves_context_unchanged baseEnv stLoaded ⟨some ["data.csv"], [], []⟩
    (.str "missing.csv".toList)
    (errDict ("File 'datasets/".toList ++ "missing.csv".toList ++ "' not found!".toList))
    rfl rfl

/-! ## Claim C9 -/

/-- C9 (confirmed): `get_dataset_list` distinguishes the three cases:
a missing `datasets` directory is a `status = "error"` result; an
existing directory with no `.csv` files is the distinct
`status = "empty"` result (not an error); and when `.csv` files are
present the result is `status = "success"` enumerating exactly them. -/
theorem C9_empty_vs_absent (fs : FS) :
    (fs.datasetsDir = Option.none →
       get_dataset_list fs = errDict "Directory 'datasets' not found!".toList) ∧
    (∀ names, fs.datasetsDir = some names →
       names.filter (fun f => pyEndsWith ".csv".toList f.toList) = [] →
       get_dataset_list fs = .dict [("status", .str "empty".toList),
         ("message", .str "No CSV files found in the 'datasets' directory.".toList)]) ∧
    (∀ names, fs.datasetsDir = some names →
       ∀ x xs, names.filter (fun f => pyEndsWith ".csv".toList f.toList) = x :: xs →
       get_dataset_list fs = .dict [("status", .str "success".toList),
         ("datasets", .list ((x :: xs).map (fun f => .str f.toList)))]) := by
  refine ⟨?_, ?_, ?_⟩
  · intro h
    simp [get_dataset_list, h]
  · intro names h hempty
    simp only [get_dataset_list, h]
    rw [hempty]
    rfl
  · intro names h x xs hfil
    simp only [get_dataset_list, h]
    rw [hfil]
    rfl

/-- C9 (witness): the three cases at concrete filesystems: absent
directory, directory with only a non-CSV file, directory with one CSV
among other files. -/
theorem C9_witness :
    get_dataset_list ⟨Option.none, [], []⟩
      = errDict "Directory 'datasets' not found!".toList ∧
    get_dataset_list ⟨some ["readme.txt"], [], []⟩
      = .dict [("status", .str "empty".toList),
         ("message", .str "No CSV files found in the 'datasets' directory.".toList)] ∧
    get_dataset_list ⟨some ["a.csv", "notes.txt"], [], []⟩
      = .dict [("status", .str "success".toList),
         ("datasets", .list (["a.csv"].map (fun f => .str f.toList)))] :=
  ⟨(C9_empty_vs_absent ⟨Option.none, [], []⟩).1 rfl,
   (C9_empty_vs_absent ⟨some ["readme.txt"], [], []⟩).2.1 ["readme.txt"] rfl (by decide),
   (C9_empty_vs_absent ⟨some ["a.csv", "notes.txt"], [], []⟩).2.2
     ["a.csv", "notes.txt"] rfl "a.csv" [] (by decide)⟩

/-! ## Claim C10 -/

/-- C10 (confirmed): when script synthesis fails — the generator's
model exchange raised (so `generate_script` returned `None`), or the
generated result has empty script text — `run_script` returns the
structured "Failed to generate analysis script." error; the filesystem
is unchanged (the single-slot script and requirements artifacts are
not written or overwritten), the agent state is unchanged, and the
only effect is the generator invocation itself: no file writes and no
sandbox provisioning. -/
theorem C10_generation_failure_short_circuit (env : Env) (st : AgentState) (fs : FS)
    (req : PyObj) (cid : Int) (df : DataFrame)
    (hdf : st.data = some df)
    (hgen : generate_script env = Option.none ∨
            ∃ si, generate_script env = some si ∧ si.script = []) :
    run_script env st fs req cid =
      (errDict "Failed to generate analysis script.".toList, st, fs, [.genInvoked]) := by
  simp only [run_script, hdf]
  rcases hgen with h | ⟨si, h, hsi⟩
  · rw [h]
  · rw [h]
    simp [hsi]

/-- C10 (witness): the theorem with a loaded dataset and a generator
whose model exchange raised. -/
theorem C10_witness :
    run_script baseEnv stLoaded emptyFS (.str "avg".toList) 7 =
      (errDict "Failed to generate analysis script.".toList, stLoaded, emptyFS,
       [.genInvoked]) :=
  C10_generation_failure_short_circuit baseEnv stLoaded emptyFS (.str "avg".toList) 7
    df0 rfl (Or.inl rfl)

/-! ## Dispatch totality and the loop under an always-calling model -/

/-- A safe tool call never raises out of the dispatcher. -/
theorem dispatch_no_raise (env : Env) (c : ToolCall) (cid : Int) (st : AgentState)
    (fs : FS) (h : dispatchSafe c = true) :
    (call_function env c.name c.arguments cid st fs).raised = false := by
  by_cases h1 : c.name = "get_dataset_list"
  · simp [dispatchSafe, knownTools, schemaOk, h1] at h
    simp [call_function, DispatchOut.raised, h1, h]
  · by_cases h2 : c.name = "load_dataset"
    · have hh : bindOk ["filename"] c.arguments = true ∧
          isStrVal (getArg c.arguments "filename") = true := by
        simp [dispatchSafe, knownTools, schemaOk, h1, h2] at h
        exact h
      cases hv : getArg c.arguments "filename" with
      | str s =>
        simp only [call_function, h1, h2, if_false, if_true, hh.1, hv]
        simp only [load_dataset, DispatchOut.raised]
        by_cases hex : datasetFileExists fs ⟨s⟩ = true
        · simp only [hex, if_true]
          cases hld : env.loadData ("datasets/" ++ ⟨s⟩) with
          | ok df => simp
          | error e => simp
        · simp only [hex, if_false]
          simp [Bool.not_eq_true] at hex
          simp [hex]
      | int n => rw [hv] at hh; simp [isStrVal] at hh
      | bool b => rw [hv] at hh; simp [isStrVal] at hh
      | list xs => rw [hv] at hh; simp [isStrVal] at hh
      | dict kvs => rw [hv] at hh; simp [isStrVal] at hh
      | none => rw [hv] at hh; simp [isStrVal] at hh
    · by_cases h3 : c.name = "get_data_preview"
      · have hh : bindOk [] c.arguments = true := by
          simp [dispatchSafe, knownTools, schemaOk, h1, h2, h3] at h
          exact h
        simp [call_function, DispatchOut.raised, h1, h2, h3, hh]
      · by_cases h4 : c.name = "get_data_info"
        · have hh : bindOk [] c.arguments = true := by
            simp [dispatchSafe, knownTools, schemaOk, h1, h2, h3, h4] at h
            exact h
          simp [call_function, DispatchOut.raised, h1, h2, h3, h4, hh]
        · by_cases h5 : c.name = "run_script"
          · have hh : bindOk ["analysis_request"] c.arguments = true := by
              simp [dispatchSafe, knownTools, schemaOk, h1, h2, h3, h4, h5] at h
              exact h.1
            simp [call_function, DispatchOut.raised, h1, h2, h3, h4, h5, hh]
          · simp [call_function, DispatchOut.raised, h1, h2, h3, h4, h5]

/-- A batch of safe tool calls dispatches to completion. -/
theorem dispatchBatch_ok (env : Env) (cid : Int) :
    ∀ calls st fs acc, (∀ c ∈ calls, dispatchSafe c = true) →
      ∃ st2 fs2 acc2, dispatchBatch env cid calls st fs acc = .ok (st2, fs2, acc2) := by
  intro calls
  induction calls with
  | nil => intro st fs acc _; exact ⟨st, fs, acc, rfl⟩
  | cons c rest ih =>
    intro st fs acc h
    have hc := dispatch_no_raise env c cid st fs (h c (by simp))
    rw [dispatchBatch]
    cases hr : (call_function env c.name c.arguments cid st fs).result with
    | error e =>
      exfalso
      simp [DispatchOut.raised, hr] at hc
    | ok r =>
      exact ih _ _ _ (fun c2 hc2 => h c2 (by simp [hc2]))

/-- Against a model that always requests safe tool calls, the loop with
`fuel + 1` remaining rounds performs exactly `fuel + 1` more rounds and
ends on the response `model (idx + fuel)`. -/
theorem loopAux_always (env : Env) (model : Nat → ModelResponse) (cid : Int)
    (hcalls : ∀ i, (model i).tool_calls ≠ [])
    (hsafe : ∀ i, ∀ c ∈ (model i).tool_calls, dispatchSafe c = true) :
    ∀ fuel count idx resp st fs acc,
      resp.tool_calls ≠ [] → (∀ c ∈ resp.tool_calls, dispatchSafe c = true) →
      ∃ st2 fs2 acc2,
        loopAux env model cid count (fuel + 1) idx resp st fs acc =
          .ok ⟨model (idx + fuel), acc2, count + fuel + 1, st2, fs2⟩ := by
  intro fuel
  induction fuel with
  | zero =>
    intro count idx resp st fs acc hne hresp
    rw [loopAux]
    have hie : resp.tool_calls.isEmpty = false := by
      simp [List.isEmpty_iff, hne]
    rw [hie]
    simp only [Bool.false_eq_true, if_false]
    obtain ⟨st2, fs2, acc2, hbatch⟩ := dispatchBatch_ok env cid resp.tool_calls st fs acc hresp
    rw [hbatch]
    dsimp only
    rw [loopAux]
    have hie2 : (model idx).tool_calls.isEmpty = false := by
      simp [List.isEmpty_iff, hcalls idx]
    rw [hie2]
    simp only [Bool.false_eq_true, if_false]
    exact ⟨st2, fs2, acc2, rfl⟩
  | succ f ih =>
    intro count idx resp st fs acc hne hresp
    rw [loopAux]
    have hie : resp.tool_calls.isEmpty = false := by
      simp [List.isEmpty_iff, hne]
    rw [hie]
    simp only [Bool.false_eq_true, if_false]
    obtain ⟨st2, fs2, acc2, hbatch⟩ := dispatchBatch_ok env cid resp.tool_calls st fs acc hresp
    rw [hbatch]
    dsimp only
    obtain ⟨st3, fs3, acc3, hrec⟩ := ih (count + 1) (idx + 1) (model idx) st2 fs2 acc2
      (hcalls idx) (hsafe idx)
    rw [hrec]
    have e1 : idx + 1 + f = idx + (f + 1) := by omega
    have e2 : count + 1 + f + 1 = count + (f + 1) + 1 := by omega
    rw [e1, e2]
    exact ⟨st3, fs3, acc3, rfl⟩

/-! ## Claim C2 -/

/-- C2 (counterexample): a scripted model issuing a `load_dataset` call
with an argument map violating the declared schema (unexpected keyword
`bogus`): the dispatch raises a `TypeError` that crosses the dispatcher
boundary and aborts the whole orchestration loop — no structured error
result is fed back to the model. -/
theorem C2_counterexample :
    query_agent baseEnv modelBadArgs 7 ⟨Option.none, Option.none⟩ emptyFS
      = .error (.typeError "load_dataset() keyword arguments do not match") := rfl

/-- C2 (amended): an unknown tool name yields the structured
`Unknown tool` error result fed back as the tool's output, and a call
with schema-conforming arguments never raises; but there is no
pre-validation of the argument map: a key-shape violation (missing
required key or extra key) on a known tool, or a non-string `filename`
for `load_dataset`, raises a `TypeError` that escapes the dispatcher
into the orchestration loop. -/
theorem C2_amended :
    (∀ (env : Env) (name : String) (args : List (String × PyObj)) (cid : Int)
       (st : AgentState) (fs : FS),
       name ∉ knownTools →
       (call_function env name args cid st fs).result =
         .ok (.dict [("status", .str "error".toList),
                     ("message", .str ("Unknown tool: ".toList ++ name.toList))])) ∧
    (∀ (env : Env) (name : String) (args : List (String × PyObj)) (cid : Int)
       (st : AgentState) (fs : FS),
       schemaOk name args = true →
       (call_function env name args cid st fs).raised = false) ∧
    (∀ (env : Env) (name : String) (args : List (String × PyObj)) (cid : Int)
       (st : AgentState) (fs : FS),
       name ∈ knownTools → argKeysOk name args = false →
       (call_function env name args cid st fs).raised = true) ∧
    (∀ (env : Env) (args : List (String × PyObj)) (cid : Int)
       (st : AgentState) (fs : FS),
       bindOk ["filename"] args = true → isStrVal (getArg args "filename") = false →
       (call_function env "load_dataset" args cid st fs).raised = true) := by
  refine ⟨?_, ?_, ?_, ?_⟩
  · intro env name args cid st fs hn
    simp only [knownTools, List.mem_cons, List.not_mem_nil, or_false, not_or] at hn
    obtain ⟨n1, n2, n3, n4, n5⟩ := hn
    simp [call_function, n1, n2, n3, n4, n5]
  · intro env name args cid st fs h
    have hsafe : dispatchSafe ⟨"x", name, args⟩ = true := by
      unfold dispatchSafe
      by_cases hmem : name ∈ knownTools
      · simp only [hmem, if_true]
        exact h
      · simp [hmem]
    exact dispatch_no_raise env ⟨"x", name, args⟩ cid st fs hsafe
  · intro env name args cid st fs hmem hkeys
    simp only [knownTools, List.mem_cons, List.not_mem_nil, or_false] at hmem
    rcases hmem with h | h | h | h | h <;> subst h <;>
      simp [argKeysOk] at hkeys <;>
      simp [call_function, DispatchOut.raised, hkeys]
  · intro env args cid st fs hbind hstr
    simp only [call_function, hbind]
    cases hv : getArg args "filename" with
    | str s => rw [hv] at hstr; simp [isStrVal] at hstr
    | int n => simp [load_dataset, DispatchOut.raised, hv]
    | bool b => simp [load_dataset, DispatchOut.raised, hv]
    | list xs => simp [load_dataset, DispatchOut.raised, hv]
    | dict kvs => simp [load_dataset, DispatchOut.raised, hv]
    | none => simp [load_dataset, DispatchOut.raised, hv]

/-- C2 (witness): the amended theorem at concrete dispatches — an
unknown tool, a conforming call, an extra-keyword call, and a
wrongly-typed `filename`. -/
theorem C2_witness :
    (call_function baseEnv "frobnicate" [] 7 ⟨Option.none, Option.none⟩ emptyFS).result =
      .ok (.dict [("status", .str "error".toList),
                  ("message", .str ("Unknown tool: ".toList ++ "frobnicate".toList))]) ∧
    (call_function baseEnv "get_data_preview" [] 7 ⟨Option.none, Option.none⟩
        emptyFS).raised = false ∧
    (call_function baseEnv "load_dataset" [("bogus", .str "x".toList)] 7
        ⟨Option.none, Option.none⟩ emptyFS).raised = true ∧
    (call_function baseEnv "load_dataset" [("filename", .int 3)] 7
        ⟨Option.none, Option.none⟩ emptyFS).raised = true :=
  ⟨C2_amended.1 baseEnv "frobnicate" [] 7 ⟨Option.none, Option.none⟩ emptyFS (by decide),
   C2_amended.2.1 baseEnv "get_data_preview" [] 7 ⟨Option.none, Option.none⟩ emptyFS rfl,
   C2_amended.2.2.1 baseEnv "load_dataset" [("bogus", .str "x".toList)] 7
     ⟨Option.none, Option.none⟩ emptyFS (by decide) rfl,
   C2_amended.2.2.2 baseEnv [("filename", .int 3)] 7 ⟨Option.none, Option.none⟩
     emptyFS rfl rfl⟩

/-! ## Claim C3 -/

/-- C3 (counterexample): the caller cannot observe any bound-exceeded
indicator.  Against `modelAlways` (which still demands a tool call on
its sixth response, so the loop is cut off by the bound) and
`modelStops` (which finishes naturally on its sixth response), the
entire observable outcome of `query_agent` — returned body, logged
limit warning, round count, final state — is identical; nothing
returned to the caller distinguishes a bound-exceeded run, and even the
limit warning is logged in both runs. -/
theorem C3_counterexample :
    query_agent baseEnv modelAlways 7 ⟨Option.none, Option.none⟩ emptyFS
      = query_agent baseEnv modelStops 7 ⟨Option.none, Option.none⟩ emptyFS ∧
    (modelAlways 5).tool_calls ≠ [] ∧ (modelStops 5).tool_calls = [] := by
  refine ⟨rfl, by simp [modelAlways], by simp [modelStops]⟩

/-- C3 (amended): against a model that requests at least one (safely
dispatchable) tool call on every response, the loop terminates after
exactly 5 tool round trips, returns whatever text the last response
carried, and logs the limit warning — but no bound-exceeded indicator
is part of the value returned to the caller (see the counterexample:
the warning also fires on a natural 5-round finish). -/
theorem C3_amended (model : Nat → ModelResponse) (env : Env) (cid : Int)
    (st : AgentState) (fs : FS)
    (hcalls : ∀ i, (model i).tool_calls ≠ [])
    (hsafe : ∀ i, ∀ c ∈ (model i).tool_calls, dispatchSafe c = true) :
    ∃ out, query_agent env model cid st fs = .ok out ∧
      out.tool_round_trips = 5 ∧ out.limitWarningLogged = true ∧
      out.result.response = (model 5).output_text := by
  obtain ⟨st2, fs2, acc2, hloop⟩ := loopAux_always env model cid hcalls hsafe 4 0 1
    (model 0) st fs [] (hcalls 0) (hsafe 0)
  have hloop5 : loopAux env model cid 0 5 1 (model 0) st fs [] =
      Except.ok ⟨model (1 + 4), acc2, 0 + 4 + 1, st2, fs2⟩ := hloop
  simp only [query_agent, max_tool_calls]
  rw [hloop5]
  dsimp only
  exact ⟨_, rfl, rfl, rfl, rfl⟩

/-- C3 (witness): the amended theorem evaluated against the concrete
always-calling model: 5 round trips, warning logged, last text
returned. -/
theorem C3_witness :
    (query_agent baseEnv modelAlways 7 ⟨Option.none, Option.none⟩ emptyFS).map
        QueryOutcome.summary = .ok (5, true, "working") := by
  obtain ⟨out, h1, h2, h3, h4⟩ := C3_amended modelAlways baseEnv 7
    ⟨Option.none, Option.none⟩ emptyFS (fun i => by simp [modelAlways])
    (fun i c hc => by
      simp [modelAlways] at hc
      rw [hc]
      decide)
  rw [h1]
  simp only [Except.map, QueryOutcome.summary]
  rw [h2, h3, h4]
  rfl

end FinAgent
